import Mathlib

/-!
Verification development for the Lighter-Hub extension sandbox runtime.

Shallow embedding of:
  * the Extension Loader (`evalMainJs`) and Archive Reader (`parseZipBuffer`)
    from `src/app/contexts/ExtensionContext.tsx`;
  * the Extension Registry and Persistence Store
    (`installFromFile`, `uninstallExtension`, rehydration effect) from the same file;
  * the per-tab navigation stack of `ExtensionNavigator`;
  * the Media Control Bridge (`MediaPlayerProvider`: music notification sub-bridge,
    video sub-bridge, `VideoControlsAPI`) from the v4 `MediaPlayerContext`;
  * the capability handles that `buildAPI` injects into extension code, which
    reach the bridge through the process-wide mutable slot `_globalMediaPlayerRef`.

Conventions of the embedding:
  * JavaScript string-valued manifest fields are modelled as `Option String`;
    `none` stands for an absent/undefined property, and JS truthiness of such a
    field is `truthy` (absent or empty string are falsy).
  * The JS engine invocation `new Function(...)(...)` performed by `evalMainJs`
    is external machinery; its observable outcome is either a thrown error or
    the value left in `module.exports`, modelled by `MainJsOutcome`.  Wherever
    the source evaluates a code string, the embedding applies an evaluation
    oracle `evalJs : String → MainJsOutcome` to that string.
  * Callback functions registered by extensions (handlers, `onEnd`, ...) are
    identified by opaque numeric ids (`Nat`): the host never inspects them, it
    only stores and invokes them, so identity is all that matters.
  * Seconds-valued playback quantities are modelled as rationals.
  * Fallible operations return `Except String`; a thrown JS error is the
    `.error` branch carrying the exact message string the source builds.
-/

namespace LighterHub

-- ── JS runtime value model ───────────────────────────────────────────────────

/-- The result of JavaScript `typeof`, used by the manifest validator for the
`component` and `screens` checks. -/
inductive JsTy
  | undefinedTy
  | objectTy
  | functionTy
  | stringTy
  | numberTy
  | booleanTy
  deriving DecidableEq

/-- Rendering of a `JsTy` as the string `typeof` produces, used in the
"component must be a function (got ...)" message. -/
def JsTy.typeName : JsTy → String
  | .undefinedTy => "undefined"
  | .objectTy    => "object"
  | .functionTy  => "function"
  | .stringTy    => "string"
  | .numberTy    => "number"
  | .booleanTy   => "boolean"

/-- JS truthiness of a string-valued property: absent (`none`) and the empty
string are falsy, any other string is truthy.  This is the `!exp.id` style
check of `evalMainJs`. -/
def truthy : Option String → Bool
  | none => false
  | some s => !s.isEmpty

-- ── Manifest data model (ExtensionContext.tsx) ───────────────────────────────

/-- A tab object as found on the raw export before validation.  String fields
are `Option String` (absent = `none`); `component` is recorded by its `typeof`;
`screens` is `none` when absent/falsy and otherwise carries its `typeof`. -/
structure RawTab where
  id : Option String
  label : Option String
  icon : Option String
  component : JsTy
  screens : Option JsTy
  deriving DecidableEq

/-- The raw `module.exports` object (when it is a truthy object): candidate
`id`, `name` and `tabs` fields. `tabs = some l` exactly when `exp.tabs` is an
array (of the listed tab objects); `none` when absent or not an array. -/
structure ExportObj where
  id : Option String
  name : Option String
  tabs : Option (List RawTab)
  deriving DecidableEq

/-- Observable outcome of running an extension's `main.js` text through the JS
engine (`new Function` in `evalMainJs`): either a thrown error with a message,
or the final `module.exports` value — `some e` when that value is a truthy
object, `none` otherwise (the `!exp || typeof exp !== 'object'` case). -/
inductive MainJsOutcome
  | jsError (msg : String)
  | exports (v : Option ExportObj)
  deriving DecidableEq

/-- A validated tab of `ExtensionManifest` (fields proven present). -/
structure ExtensionTab where
  id : String
  label : String
  icon : String
  deriving DecidableEq

/-- A validated extension manifest, as returned by `evalMainJs`. -/
structure ExtensionManifest where
  id : String
  name : String
  tabs : List ExtensionTab
  deriving DecidableEq

-- ── Extension Loader: evalMainJs validation ─────────────────────────────────

/-- The per-tab validation loop of `evalMainJs` (`for (const tab of exp.tabs)`),
with the source's checks in source order and its exact error messages:
tab `id`, `label`, `icon`, callable `component`, and object-typed `screens`. -/
def validateTabs : List RawTab → Except String (List ExtensionTab)
  | [] => .ok []
  | tab :: rest =>
    if !(truthy tab.id) then .error "Tab missing \"id\""
    else
      let tid := tab.id.getD ""
      if !(truthy tab.label) then .error ("Tab \"" ++ tid ++ "\" missing \"label\"")
      else if !(truthy tab.icon) then .error ("Tab \"" ++ tid ++ "\" missing \"icon\"")
      else if tab.component ≠ JsTy.functionTy then
        .error ("Tab \"" ++ tid ++ "\": \"component\" must be a function (got "
                ++ tab.component.typeName ++ ")")
      else
        match tab.screens with
        | some sty =>
          if sty ≠ JsTy.objectTy then
            .error ("Tab \"" ++ tid ++ "\": \"screens\" must be an object")
          else
            match validateTabs rest with
            | .error e => .error e
            | .ok ts => .ok (⟨tid, tab.label.getD "", tab.icon.getD ""⟩ :: ts)
        | none =>
          match validateTabs rest with
          | .error e => .error e
          | .ok ts => .ok (⟨tid, tab.label.getD "", tab.icon.getD ""⟩ :: ts)

/-- The Extension Loader `evalMainJs` applied to the outcome of evaluating the
module source: wraps a thrown JS error, rejects a non-object export, then
validates `id`, `name`, the non-empty `tabs` array and every tab, failing fast
with the source's field-specific message. On success it returns the manifest. -/
def evalMainJs : MainJsOutcome → Except String ExtensionManifest
  | .jsError m => .error ("JS error in main.js: " ++ m)
  | .exports none => .error "main.js must assign module.exports = \x7b id, name, tabs \x7d"
  | .exports (some e) =>
    if !(truthy e.id) then .error "Missing field: \"id\""
    else if !(truthy e.name) then .error "Missing field: \"name\""
    else
      match e.tabs with
      | none => .error "Missing or empty \"tabs\" array"
      | some tabs =>
        if tabs.isEmpty then .error "Missing or empty \"tabs\" array"
        else
          match validateTabs tabs with
          | .error msg => .error msg
          | .ok ts => .ok ⟨e.id.getD "", e.name.getD "", ts⟩

-- ── Archive Reader: parseZipBuffer ───────────────────────────────────────────

/-- A parsed zip container: the ordered list of member names with their
contents (text for `main.js`, base64 text for binary members). -/
structure ZipArchive where
  files : List (String × String)
  deriving DecidableEq

/-- JS-object key lookup (first matching key), as used for `zip.file(name)`
and for the persisted map. -/
def objGet {V : Type} : List (String × V) → String → Option V
  | [], _ => none
  | (k, v) :: rest, key => if k = key then some v else objGet rest key

/-- JS-object key assignment `m[k] = v`: replaces in place when the key
exists, appends otherwise. -/
def objSet {V : Type} : List (String × V) → String → V → List (String × V)
  | [], key, v => [(key, v)]
  | (k, w) :: rest, key, v =>
    if k = key then (key, v) :: rest else (k, w) :: objSet rest key v

/-- JS `delete m[k]`. -/
def objDelete {V : Type} (m : List (String × V)) (key : String) : List (String × V) :=
  m.filter (fun kv => kv.1 != key)

/-- Member lookup in the archive, `zip.file(name)`. -/
def zipFile (zip : ZipArchive) (name : String) : Option String :=
  objGet zip.files name

/-- `Array.prototype.join(', ')` as used for the member-name enumeration in the
missing-entry-point message. -/
def joinComma : List String → String
  | [] => ""
  | [x] => x
  | x :: y :: rest => x ++ ", " ++ joinComma (y :: rest)

/-- Result of a successful `parseZipBuffer`: validated manifest, the raw
`main.js` text, and the optional icon data URI. -/
structure ParsedBundle where
  manifest : ExtensionManifest
  mainJs : String
  iconUri : Option String
  deriving DecidableEq

/-- The Archive Reader `parseZipBuffer` on an already-parsed archive (the
`JSZip.loadAsync` failure for malformed bytes happens before this point):
looks up the required `main.js` member — failing with a message that lists the
member names actually found — reads the optional `icon.png` member into a
base64 data URI (`none` when absent, not an error), and runs the Extension
Loader on the code text via the engine oracle `evalJs`. -/
def parseZipBuffer (evalJs : String → MainJsOutcome) (zip : ZipArchive) :
    Except String ParsedBundle :=
  match zipFile zip "main.js" with
  | none => .error ("main.js not found. Found: " ++ joinComma (zip.files.map Prod.fst))
  | some mainJs =>
    let iconUri : Option String :=
      match zipFile zip "icon.png" with
      | none => none
      | some b64 => some ("data:image/png;base64," ++ b64)
    match evalMainJs (evalJs mainJs) with
    | .error e => .error e
    | .ok manifest => .ok ⟨manifest, mainJs, iconUri⟩

-- ── Extension Registry and Persistence Store ─────────────────────────────────

/-- A persisted extension record (the durable store maps extension id to this). -/
structure PersistedExt where
  mainJs : String
  iconUri : Option String
  installedAt : Nat
  deriving DecidableEq

/-- An installed extension held by the in-memory registry. -/
structure InstalledExtension where
  manifest : ExtensionManifest
  iconUri : Option String
  installedAt : Nat
  deriving DecidableEq

/-- The registry state: the in-memory installed collection and the durable
store (the single `@lhub_v3` key's id-keyed map). -/
structure AppState where
  extensions : List InstalledExtension
  stored : List (String × PersistedExt)
  deriving DecidableEq

/-- The `{ ok, error? }` result surfaced by the install flows. -/
structure InstallResult where
  ok : Bool
  error : Option String
  deriving DecidableEq

/-- `installFromFile` (web install flow; the native flow is identical after the
document pick): parse the archive, and on success upsert the in-memory
collection by manifest id (`prev.filter(e => e.manifest.id !== manifest.id)`
followed by append) and write the persisted record through to the durable map;
on any parse/validation failure return `{ ok: false, error }` with the state
untouched. `now` is the `Date.now()` timestamp. -/
def installFromFile (evalJs : String → MainJsOutcome) (st : AppState)
    (zip : ZipArchive) (now : Nat) : AppState × InstallResult :=
  match parseZipBuffer evalJs zip with
  | .error e => (st, ⟨false, some e⟩)
  | .ok pb =>
    let installed : InstalledExtension := ⟨pb.manifest, pb.iconUri, now⟩
    let exts := (st.extensions.filter (fun e => e.manifest.id != pb.manifest.id)) ++ [installed]
    let stored := objSet st.stored pb.manifest.id ⟨pb.mainJs, pb.iconUri, now⟩
    (⟨exts, stored⟩, ⟨true, none⟩)

/-- `uninstallExtension`: filter the id out of the in-memory collection and
delete its key from the durable map.  Total — never an error. -/
def uninstallExtension (st : AppState) (id : String) : AppState :=
  ⟨st.extensions.filter (fun e => e.manifest.id != id), objDelete st.stored id⟩

/-- The `for (const [id, p] of Object.entries(stored))` rehydration loop: each
record's source is re-evaluated independently; a record whose load succeeds is
pushed, a record whose load throws is skipped (caught and warned). -/
def rehydrateLoop (evalJs : String → MainJsOutcome) :
    List (String × PersistedExt) → List InstalledExtension
  | [] => []
  | (_, p) :: rest =>
    match evalMainJs (evalJs p.mainJs) with
    | .ok m => ⟨m, p.iconUri, p.installedAt⟩ :: rehydrateLoop evalJs rest
    | .error _ => rehydrateLoop evalJs rest

/-- The mount-time rehydration effect of `ExtensionProvider`: load the stored
map, return early when it is empty, run the per-record loop, and replace the
extensions state only when at least one record rehydrated.  `extensions0` is
the extensions state before the effect (the initial `[]` at mount). -/
def rehydrationEffect (evalJs : String → MainJsOutcome)
    (stored : List (String × PersistedExt))
    (extensions0 : List InstalledExtension) : List InstalledExtension :=
  if stored.isEmpty then extensions0
  else
    let rehydrated := rehydrateLoop evalJs stored
    if rehydrated.isEmpty then extensions0 else rehydrated

-- ── Navigation Stack Engine (ExtensionNavigator) ─────────────────────────────

/-- Params carried by a stack entry (`params: any` collapsed to a string map;
`{}` is `[]`). -/
abbrev ParamMap := List (String × String)

/-- One entry of the per-tab navigation stack. -/
structure StackEntry where
  screenName : String
  params : ParamMap
  deriving DecidableEq

/-- The reserved root entry `{ screenName: '__root__', params: {} }`. -/
def rootEntry : StackEntry := ⟨"__root__", []⟩

/-- The initial stack state `[{ screenName: '__root__', params: {} }]`. -/
def initialStack : List StackEntry := [rootEntry]

/-- The navigation operations exposed to extension screens. -/
inductive NavOp
  | pushScreen (screenName : String) (params : Option ParamMap)
  | popScreen
  | popToRoot
  deriving DecidableEq

/-- One navigation transition: `push` appends `{ screenName, params ?? {} }`,
`pop` drops the last entry unless the stack has at most one entry
(`if (stack.length <= 1) return`), `popToRoot` resets to the single root
entry. -/
def navStep (stack : List StackEntry) : NavOp → List StackEntry
  | .pushScreen n p => stack ++ [⟨n, p.getD []⟩]
  | .popScreen => if stack.length ≤ 1 then stack else stack.dropLast
  | .popToRoot => initialStack

/-- A whole sequence of navigation transitions from the initial state. -/
def runNav (ops : List NavOp) : List StackEntry :=
  ops.foldl navStep initialStack

/-- What the navigator renders for the current entry. -/
inductive RenderedScreen
  | rootComponent
  | subScreen (name : String)
  | notFound (name : String)
  deriving DecidableEq

/-- Screen resolution of `ExtensionNavigator`: the sentinel name always renders
the tab's root component (checked first, before the `screens` map is ever
consulted); otherwise a name present in the tab's `screens` mapping renders
that sub-screen, and anything else falls back to the not-found placeholder.
`screens` is the list of screen names of the tab's optional `screens` map. -/
def renderedScreen (screens : Option (List String)) (current : StackEntry) : RenderedScreen :=
  if current.screenName = "__root__" then .rootComponent
  else
    match screens with
    | some names =>
      if names.contains current.screenName then .subScreen current.screenName
      else .notFound current.screenName
    | none => .notFound current.screenName

-- ── Media Control Bridge: music notification sub-bridge ──────────────────────

/-- The metadata/playback snapshot an extension pushes with
`musicPlayer.update`. -/
structure MusicNotificationInfo where
  title : String
  artist : String
  artwork : Option String
  album : Option String
  isPlaying : Bool
  duration : ℚ
  position : ℚ
  deriving DecidableEq

/-- The handler set registered with `setHandlers`; each callback is an opaque
id, `none` when the extension did not supply that handler. -/
structure MusicNotificationHandlers where
  onPlay : Option Nat
  onPause : Option Nat
  onNext : Option Nat
  onPrev : Option Nat
  onSeek : Option Nat
  onStop : Option Nat
  deriving DecidableEq

/-- The empty handler set `{}` (initial value of `handlersRef`). -/
def noHandlers : MusicNotificationHandlers := ⟨none, none, none, none, none, none⟩

/-- The `navigator.mediaSession.playbackState` values used by the bridge. -/
inductive MsPlaybackState
  | playing
  | paused
  | noneState
  deriving DecidableEq

/-- The platform media-session surface (web path): metadata, playback state,
one registered action handler per action, and the reported position state
(duration, position). -/
structure MediaSessionState where
  metadata : Option MusicNotificationInfo
  playbackState : MsPlaybackState
  playAction : Option Nat
  pauseAction : Option Nat
  nextAction : Option Nat
  prevAction : Option Nat
  seekAction : Option Nat
  positionState : Option (ℚ × ℚ)
  deriving DecidableEq

/-- `setupWebMediaSession(info, h)`: sets the metadata and playback state,
registers an action handler for each handler present in `h` (each guarded by
`if (h.onX)` — an action whose handler is absent from `h` keeps whatever
handler the platform already had), and reports the clamped position state. -/
def setupWebMediaSession (info : MusicNotificationInfo)
    (h : MusicNotificationHandlers) (ms : MediaSessionState) : MediaSessionState :=
  { ms with
    metadata := some info
    playbackState := if info.isPlaying then .playing else .paused
    playAction := match h.onPlay with | some f => some f | none => ms.playAction
    pauseAction := match h.onPause with | some f => some f | none => ms.pauseAction
    nextAction := match h.onNext with | some f => some f | none => ms.nextAction
    prevAction := match h.onPrev with | some f => some f | none => ms.prevAction
    seekAction := match h.onSeek with | some f => some f | none => ms.seekAction
    positionState := some (info.duration, min info.position info.duration) }

/-- `clearWebMediaSession()`: metadata null, playback state `'none'`, and every
action handler unregistered. -/
def clearWebMediaSession (ms : MediaSessionState) : MediaSessionState :=
  { ms with
    metadata := none
    playbackState := .noneState
    playAction := none
    pauseAction := none
    nextAction := none
    prevAction := none
    seekAction := none }

-- ── Media Control Bridge: video sub-bridge and provider state ────────────────

/-- Options passed to `videoPlayer.open`; callbacks and the `renderControls`
function are opaque ids. -/
structure VideoPlayerOptions where
  uri : String
  title : Option String
  startPosition : Option ℚ
  loop : Option Bool
  onEnd : Option Nat
  onClose : Option Nat
  renderControls : Option Nat
  deriving DecidableEq

/-- The `MediaPlayerProvider` state: the current music snapshot (`notifInfo`),
the registered handler set (`handlersRef.current`), and the live video
session's options (`videoOptions`, `none` when no session is open). -/
structure MediaPlayerState where
  notifInfo : Option MusicNotificationInfo
  handlers : MusicNotificationHandlers
  videoOptions : Option VideoPlayerOptions
  deriving DecidableEq

/-- `musicNotification.update(info)` on the web platform: store the snapshot;
the `[notifInfo]` effect then re-runs `setupWebMediaSession` with the currently
registered handlers. -/
def musicUpdate (i : MusicNotificationInfo) :
    MediaPlayerState × MediaSessionState → MediaPlayerState × MediaSessionState
  | (st, ms) => ({ st with notifInfo := some i }, setupWebMediaSession i st.handlers ms)

/-- `musicNotification.setHandlers(h)` on the web platform: replace
`handlersRef.current` with `h` wholesale, and, only when a snapshot is active,
re-run `setupWebMediaSession` with the new handler set. -/
def musicSetHandlers (h : MusicNotificationHandlers) :
    MediaPlayerState × MediaSessionState → MediaPlayerState × MediaSessionState
  | (st, ms) =>
    ({ st with handlers := h },
     match st.notifInfo with
     | some info => setupWebMediaSession info h ms
     | none => ms)

/-- `musicNotification.clear()` on the web platform: drop the snapshot and
tear the platform session down. -/
def musicClear :
    MediaPlayerState × MediaSessionState → MediaPlayerState × MediaSessionState
  | (st, ms) => ({ st with notifInfo := none }, clearWebMediaSession ms)

/-- `musicNotification.current`. -/
def musicCurrent (st : MediaPlayerState) : Option MusicNotificationInfo :=
  st.notifInfo

/-- A platform "play" button press delivers the registered play action handler
(the callback the media session would invoke), `none` when no handler is
registered. -/
def pressPlay (ms : MediaSessionState) : Option Nat :=
  ms.playAction

/-- `videoPlayer.open(options)`: `setVideoOptions(o)` — the single live-session
slot is overwritten, so a second open replaces the first. -/
def videoOpen (o : VideoPlayerOptions) (st : MediaPlayerState) : MediaPlayerState :=
  { st with videoOptions := some o }

/-- `videoPlayer.close()`: `setVideoOptions(null)`. -/
def videoClose (st : MediaPlayerState) : MediaPlayerState :=
  { st with videoOptions := none }

/-- `videoPlayer.isOpen`: `videoOptions !== null`. -/
def videoIsOpen (st : MediaPlayerState) : Bool :=
  st.videoOptions.isSome

/-- What the provider renders: `{videoOptions && <LhubVideoPlayer options=...>}`
— exactly one player component, mounted iff a session is open, configured with
the slot's options. -/
def renderedVideoPlayer (st : MediaPlayerState) : Option VideoPlayerOptions :=
  st.videoOptions

-- ── VideoControlsAPI (LhubVideoPlayer) ───────────────────────────────────────

/-- Commands the control surface issues to the playback engine
(`videoRef.current`). `setPositionMillis q` is `setPositionAsync(q)`. -/
inductive VideoCmd
  | playCmd
  | pauseCmd
  | replayCmd
  | setPositionMillis (q : ℚ)
  deriving DecidableEq

/-- The live playback state the control surface closes over. -/
structure VideoPlaybackState where
  isPlaying : Bool
  isEnded : Bool
  duration : ℚ
  position : ℚ
  deriving DecidableEq

/-- `skip(s)`: `t = Math.max(0, Math.min(duration, position + s))`, then
`setPositionAsync(t * 1000)`. -/
def skip (st : VideoPlaybackState) (s : ℚ) : VideoCmd :=
  .setPositionMillis ((max 0 (min st.duration (st.position + s))) * 1000)

/-- `seek(s)`: `setPositionAsync(s * 1000)`. -/
def seek (s : ℚ) : VideoCmd :=
  .setPositionMillis (s * 1000)

/-- `togglePlay()`: in the Ended state replay from the start and clear the
ended flag; otherwise pause when playing and play when paused. -/
def togglePlay (st : VideoPlaybackState) : VideoCmd × VideoPlaybackState :=
  if st.isEnded then (.replayCmd, { st with isEnded := false })
  else if st.isPlaying then (.pauseCmd, st)
  else (.playCmd, st)

-- ── Capability handles injected by buildAPI ──────────────────────────────────

/-- The process-wide mutable slot `_globalMediaPlayerRef` together with the
bridge state it points to: `none` before any `MediaPlayerProvider` has mounted
and called `_setGlobalMediaPlayer`. -/
structure BridgeWorld where
  mp : Option (MediaPlayerState × MediaSessionState)
  deriving DecidableEq

/-- Injected `musicPlayer.update`: `_globalMediaPlayerRef?.musicNotification.update(info)`
— optional chaining makes the call a no-op while the slot is unset. -/
def bridgeMusicUpdate (i : MusicNotificationInfo) (w : BridgeWorld) : BridgeWorld :=
  match w.mp with
  | none => w
  | some s => ⟨some (musicUpdate i s)⟩

/-- Injected `musicPlayer.setHandlers`. -/
def bridgeMusicSetHandlers (h : MusicNotificationHandlers) (w : BridgeWorld) : BridgeWorld :=
  match w.mp with
  | none => w
  | some s => ⟨some (musicSetHandlers h s)⟩

/-- Injected `musicPlayer.clear`. -/
def bridgeMusicClear (w : BridgeWorld) : BridgeWorld :=
  match w.mp with
  | none => w
  | some s => ⟨some (musicClear s)⟩

/-- Injected `musicPlayer.getCurrent`:
`_globalMediaPlayerRef?.musicNotification.current ?? null`. -/
def bridgeMusicGetCurrent (w : BridgeWorld) : Option MusicNotificationInfo :=
  match w.mp with
  | none => none
  | some s => musicCurrent s.1

/-- Injected `videoPlayer.open`. -/
def bridgeVideoOpen (o : VideoPlayerOptions) (w : BridgeWorld) : BridgeWorld :=
  match w.mp with
  | none => w
  | some s => ⟨some (videoOpen o s.1, s.2)⟩

/-- Injected `videoPlayer.close`. -/
def bridgeVideoClose (w : BridgeWorld) : BridgeWorld :=
  match w.mp with
  | none => w
  | some s => ⟨some (videoClose s.1, s.2)⟩

/-- Injected `videoPlayer.isOpen`:
`_globalMediaPlayerRef?.videoPlayer.isOpen ?? false`. -/
def bridgeVideoIsOpen (w : BridgeWorld) : Bool :=
  match w.mp with
  | none => false
  | some s => videoIsOpen s.1

-- ── Specification-side predicates for stating the claims ─────────────────────

/-- The manifest fields the structural contract requires, as named by the
spec; tab-level fields carry the offending tab's id (and, for `component`,
the `typeof` actually found) because the source's message interpolates them. -/
inductive ManifestField
  | fieldId
  | fieldName
  | fieldTabs
  | tabFieldId
  | tabFieldLabel (tabId : String)
  | tabFieldIcon (tabId : String)
  | tabFieldComponent (tabId : String) (got : JsTy)
  | tabFieldScreens (tabId : String)
  deriving DecidableEq

/-- The plain name of the field a `ManifestField` stands for. -/
def fieldNameOf : ManifestField → String
  | .fieldId => "id"
  | .fieldName => "name"
  | .fieldTabs => "tabs"
  | .tabFieldId => "id"
  | .tabFieldLabel _ => "label"
  | .tabFieldIcon _ => "icon"
  | .tabFieldComponent _ _ => "component"
  | .tabFieldScreens _ => "screens"

/-- The exact message `evalMainJs` throws for each violated field. -/
def missingFieldMsg : ManifestField → String
  | .fieldId => "Missing field: \"id\""
  | .fieldName => "Missing field: \"name\""
  | .fieldTabs => "Missing or empty \"tabs\" array"
  | .tabFieldId => "Tab missing \"id\""
  | .tabFieldLabel tid => "Tab \"" ++ tid ++ "\" missing \"label\""
  | .tabFieldIcon tid => "Tab \"" ++ tid ++ "\" missing \"icon\""
  | .tabFieldComponent tid got =>
      "Tab \"" ++ tid ++ "\": \"component\" must be a function (got "
      ++ got.typeName ++ ")"
  | .tabFieldScreens tid => "Tab \"" ++ tid ++ "\": \"screens\" must be an object"

/-- The first violated field of the tab list, in the validator's check order
(fail-fast contract of the spec). -/
def firstTabViolation : List RawTab → Option ManifestField
  | [] => none
  | tab :: rest =>
    if !(truthy tab.id) then some .tabFieldId
    else if !(truthy tab.label) then some (.tabFieldLabel (tab.id.getD ""))
    else if !(truthy tab.icon) then some (.tabFieldIcon (tab.id.getD ""))
    else if tab.component ≠ JsTy.functionTy then
      some (.tabFieldComponent (tab.id.getD "") tab.component)
    else
      match tab.screens with
      | some sty =>
        if sty ≠ JsTy.objectTy then some (.tabFieldScreens (tab.id.getD ""))
        else firstTabViolation rest
      | none => firstTabViolation rest

/-- The first violated field of an exported manifest object, in the
validator's check order; `none` when the export satisfies the whole
structural contract. -/
def firstViolation (e : ExportObj) : Option ManifestField :=
  if !(truthy e.id) then some .fieldId
  else if !(truthy e.name) then some .fieldName
  else
    match e.tabs with
    | none => some .fieldTabs
    | some tabs => if tabs.isEmpty then some .fieldTabs else firstTabViolation tabs

/-- `needle` occurs verbatim inside `hay` — the sense in which an error
message "names" a field or "enumerates" a member name. -/
def containsStr (hay needle : String) : Prop :=
  ∃ pre post, hay = pre ++ needle ++ post

-- ── Concrete demonstration values for the witness theorems ───────────────────

/-- A structurally valid raw tab. -/
def goodTab : RawTab := ⟨some "home", some "Home", some "home", .functionTy, none⟩

/-- A structurally valid raw export. -/
def goodExport : ExportObj := ⟨some "com.t.x", some "X", some [goodTab]⟩

/-- The manifest `evalMainJs` derives from `goodExport`. -/
def goodManifest : ExtensionManifest := ⟨"com.t.x", "X", [⟨"home", "Home", "home"⟩]⟩

/-- A second valid export with the same id (for the upsert scenario). -/
def extraExport : ExportObj := ⟨some "com.t.x", some "X2", some [goodTab]⟩

/-- The manifest `evalMainJs` derives from `extraExport`. -/
def extraManifest : ExtensionManifest := ⟨"com.t.x", "X2", [⟨"home", "Home", "home"⟩]⟩

/-- An export that violates the contract: its `name` field is absent. -/
def badExport : ExportObj := ⟨some "com.bad", none, some [goodTab]⟩

/-- A demonstration JS-engine oracle: three known source texts evaluate to the
three exports above, anything else throws. -/
def evalJsDemo : String → MainJsOutcome := fun code =>
  if code = "srcA" then .exports (some goodExport)
  else if code = "srcB" then .exports (some extraExport)
  else if code = "srcBad" then .exports (some badExport)
  else .jsError "SyntaxError: unexpected token"

/-- Archive holding only a valid `main.js` (no icon). -/
def zipA : ZipArchive := ⟨[("main.js", "srcA")]⟩

/-- Archive holding a valid `main.js` (same manifest id as `zipA`) plus icon. -/
def zipB : ZipArchive := ⟨[("main.js", "srcB"), ("icon.png", "QUJD")]⟩

/-- Archive with no `main.js` member at all. -/
def zipNoMain : ZipArchive := ⟨[("readme.txt", "hi"), ("icon.png", "QUJD")]⟩

/-- Archive whose `main.js` evaluates to a manifest missing `name`. -/
def zipBadMain : ZipArchive := ⟨[("main.js", "srcBad")]⟩

/-- The bundle `parseZipBuffer evalJsDemo zipB` produces. -/
def bundleB : ParsedBundle := ⟨extraManifest, "srcB", some "data:image/png;base64,QUJD"⟩

/-- Persisted records for the rehydration scenario: first and third load
successfully, the second's source is corrupted. -/
def recA : PersistedExt := ⟨"srcA", none, 1⟩

/-- The corrupted middle record. -/
def recBad : PersistedExt := ⟨"srcBad", none, 2⟩

/-- The third, valid record. -/
def recB : PersistedExt := ⟨"srcB", some "data:image/png;base64,QUJD", 3⟩

/-- A registry state with `goodManifest` installed and persisted. -/
def demoState : AppState := ⟨[⟨goodManifest, none, 1⟩], [("com.t.x", recA)]⟩

/-- A music snapshot for the handler-replacement scenario. -/
def demoInfo : MusicNotificationInfo := ⟨"Track", "Artist", none, none, true, 100, 0⟩

/-- A pristine platform media-session surface. -/
def msEmpty : MediaSessionState := ⟨none, .noneState, none, none, none, none, none, none⟩

/-- Provider state with an active snapshot and no handlers registered yet. -/
def mpActive : MediaPlayerState := ⟨some demoInfo, noHandlers, none⟩

/-- First registered handler set: only `onPlay` (callback id 1). -/
def handlersPlay1 : MusicNotificationHandlers := { noHandlers with onPlay := some 1 }

/-- Second registered handler set: only `onPause` (callback id 2). -/
def handlersPause2 : MusicNotificationHandlers := { noHandlers with onPause := some 2 }

/-- Video options A for the replace-on-open scenario. -/
def videoOptsA : VideoPlayerOptions := ⟨"https://a/v.m3u8", some "A", none, none, none, none, none⟩

/-- Video options B for the replace-on-open scenario. -/
def videoOptsB : VideoPlayerOptions := ⟨"https://b/v.mp4", some "B", none, none, none, none, none⟩

/-- A playback state in the Ended state, for the togglePlay scenario. -/
def demoPlayback : VideoPlaybackState := ⟨false, true, 10, 2⟩

-- ── Helper lemmas ────────────────────────────────────────────────────────────

theorem containsStr_self (s : String) : containsStr s s :=
  ⟨"", "", by simp⟩

theorem containsStr_append_left (a : String) {b n : String}
    (h : containsStr b n) : containsStr (a ++ b) n := by
  obtain ⟨p, q, hpq⟩ := h
  exact ⟨a ++ p, q, by rw [hpq]; simp [String.append_assoc]⟩

theorem containsStr_append_right (b : String) {a n : String}
    (h : containsStr a n) : containsStr (a ++ b) n := by
  obtain ⟨p, q, hpq⟩ := h
  exact ⟨p, q ++ b, by rw [hpq]; simp [String.append_assoc]⟩

theorem joinComma_contains : ∀ (l : List String), ∀ n ∈ l, containsStr (joinComma l) n := by
  intro l
  induction l with
  | nil => intro n hn; simp at hn
  | cons x rest ih =>
    intro n hn
    cases rest with
    | nil =>
      simp at hn
      rw [hn]
      exact containsStr_self x
    | cons y rest2 =>
      rcases List.mem_cons.mp hn with h | h
      · rw [h]
        exact containsStr_append_right _ (containsStr_append_right _ (containsStr_self x))
      · exact containsStr_append_left (x ++ ", ") (ih n h)

theorem missingFieldMsg_names (f : ManifestField) :
    containsStr (missingFieldMsg f) (fieldNameOf f) := by
  cases f with
  | fieldId => exact ⟨"Missing field: \"", "\"", rfl⟩
  | fieldName => exact ⟨"Missing field: \"", "\"", rfl⟩
  | fieldTabs => exact ⟨"Missing or empty \"", "\" array", rfl⟩
  | tabFieldId => exact ⟨"Tab missing \"", "\"", rfl⟩
  | tabFieldLabel tid =>
    exact containsStr_append_left ("Tab \"" ++ tid)
      ⟨"\" missing \"", "\"", rfl⟩
  | tabFieldIcon tid =>
    exact containsStr_append_left ("Tab \"" ++ tid)
      ⟨"\" missing \"", "\"", rfl⟩
  | tabFieldComponent tid got =>
    exact containsStr_append_right ")" (containsStr_append_right (JsTy.typeName got)
      (containsStr_append_left ("Tab \"" ++ tid)
        ⟨"\": \"", "\" must be a function (got ", rfl⟩))
  | tabFieldScreens tid =>
    exact containsStr_append_left ("Tab \"" ++ tid)
      ⟨"\": \"", "\" must be an object", rfl⟩

theorem validateTabs_error (tabs : List RawTab) :
    ∀ f : ManifestField, firstTabViolation tabs = some f →
      validateTabs tabs = Except.error (missingFieldMsg f) := by
  induction tabs with
  | nil => intro f hf; simp [firstTabViolation] at hf
  | cons tab rest ih =>
    intro f hf
    cases h1 : truthy tab.id with
    | false =>
      simp [firstTabViolation, h1] at hf
      subst hf
      simp [validateTabs, h1, missingFieldMsg]
    | true =>
      cases h2 : truthy tab.label with
      | false =>
        simp [firstTabViolation, h1, h2] at hf
        subst hf
        simp [validateTabs, h1, h2, missingFieldMsg]
      | true =>
        cases h3 : truthy tab.icon with
        | false =>
          simp [firstTabViolation, h1, h2, h3] at hf
          subst hf
          simp [validateTabs, h1, h2, h3, missingFieldMsg]
        | true =>
          by_cases h4 : tab.component = JsTy.functionTy
          · cases h5 : tab.screens with
            | some sty =>
              by_cases h6 : sty = JsTy.objectTy
              · have hrec := ih f (by simpa [firstTabViolation, h1, h2, h3, h4, h5, h6] using hf)
                simp [validateTabs, h1, h2, h3, h4, h5, h6, hrec]
              · simp [firstTabViolation, h1, h2, h3, h4, h5, h6] at hf
                subst hf
                simp [validateTabs, h1, h2, h3, h4, h5, h6, missingFieldMsg]
            | none =>
              have hrec := ih f (by simpa [firstTabViolation, h1, h2, h3, h4, h5] using hf)
              simp [validateTabs, h1, h2, h3, h4, h5, hrec]
          · simp [firstTabViolation, h1, h2, h3, h4] at hf
            subst hf
            simp [validateTabs, h1, h2, h3, h4, missingFieldMsg]

theorem evalMainJs_error_of_firstViolation (e : ExportObj) (f : ManifestField)
    (hf : firstViolation e = some f) :
    evalMainJs (.exports (some e)) = Except.error (missingFieldMsg f) := by
  cases h1 : truthy e.id with
  | false =>
    simp [firstViolation, h1] at hf
    subst hf
    simp [evalMainJs, h1, missingFieldMsg]
  | true =>
    cases h2 : truthy e.name with
    | false =>
      simp [firstViolation, h1, h2] at hf
      subst hf
      simp [evalMainJs, h1, h2, missingFieldMsg]
    | true =>
      cases h3 : e.tabs with
      | none =>
        simp [firstViolation, h1, h2, h3] at hf
        subst hf
        simp [evalMainJs, h1, h2, h3, missingFieldMsg]
      | some tabs =>
        cases h4 : tabs.isEmpty with
        | true =>
          simp [firstViolation, h1, h2, h3, h4] at hf
          subst hf
          simp [evalMainJs, h1, h2, h3, h4, missingFieldMsg]
        | false =>
          have hrec := validateTabs_error tabs f
            (by simpa [firstViolation, h1, h2, h3, h4] using hf)
          simp [evalMainJs, h1, h2, h3, h4, hrec]

theorem objGet_objSet_self {V : Type} (m : List (String × V)) (k : String) (v : V) :
    objGet (objSet m k v) k = some v := by
  induction m with
  | nil => simp [objSet, objGet]
  | cons kv rest ih =>
    obtain ⟨k1, w⟩ := kv
    by_cases h : k1 = k
    · subst h; simp [objSet, objGet]
    · simp [objSet, objGet, h, ih]

theorem objGet_objDelete_self {V : Type} (m : List (String × V)) (k : String) :
    objGet (objDelete m k) k = none := by
  induction m with
  | nil => simp [objDelete, objGet]
  | cons kv rest ih =>
    obtain ⟨k1, w⟩ := kv
    by_cases h : k1 = k
    · subst h; simpa [objDelete, objGet] using ih
    · simpa [objDelete, objGet, h] using ih

theorem objDelete_eq_self_of_absent {V : Type} (m : List (String × V)) (k : String)
    (h : objGet m k = none) : objDelete m k = m := by
  induction m with
  | nil => simp [objDelete]
  | cons kv rest ih =>
    obtain ⟨k1, w⟩ := kv
    by_cases hk : k1 = k
    · subst hk; simp [objGet] at h
    · simp only [objGet, if_neg hk] at h
      have hrest := ih h
      unfold objDelete at hrest ⊢
      simp [List.filter_cons, hk, hrest]

theorem rehydrateLoop_eq_filterMap (evalJs : String → MainJsOutcome)
    (stored : List (String × PersistedExt)) :
    rehydrateLoop evalJs stored = stored.filterMap (fun ip =>
      match evalMainJs (evalJs ip.2.mainJs) with
      | .ok m => some ⟨m, ip.2.iconUri, ip.2.installedAt⟩
      | .error _ => none) := by
  induction stored with
  | nil => rfl
  | cons ip rest ih =>
    obtain ⟨a, p⟩ := ip
    cases hev : evalMainJs (evalJs p.mainJs) with
    | ok m => simp [rehydrateLoop, List.filterMap_cons, hev, ih]
    | error msg => simp [rehydrateLoop, List.filterMap_cons, hev, ih]

theorem navStep_preserves_head (s : List StackEntry) (op : NavOp)
    (h : s.head? = some rootEntry) : (navStep s op).head? = some rootEntry := by
  cases op with
  | pushScreen n p =>
    cases s with
    | nil => simp at h
    | cons a t => simpa [navStep] using h
  | popScreen =>
    by_cases hl : s.length ≤ 1
    · simpa [navStep, hl] using h
    · cases s with
      | nil => simp at h
      | cons a t =>
        cases t with
        | nil => simp [navStep] at hl
        | cons b u =>
          have hne : (b :: u : List StackEntry) ≠ [] := by simp
          simp [navStep, hl, List.dropLast_cons_of_ne_nil hne]
          simpa using h
  | popToRoot => simp [navStep, initialStack]

theorem runNav_head (ops : List NavOp) : (runNav ops).head? = some rootEntry := by
  have key : ∀ (ops : List NavOp) (s : List StackEntry), s.head? = some rootEntry →
      (ops.foldl navStep s).head? = some rootEntry := by
    intro ops
    induction ops with
    | nil => intro s h; exact h
    | cons op rest ih =>
      intro s h
      exact ih (navStep s op) (navStep_preserves_head s op h)
  exact key ops initialStack rfl

-- ── Claim theorems ───────────────────────────────────────────────────────────

/-- C1: for every exported manifest object whose first violated required field
(in the validator's fail-fast check order) is `f` — `id`, `name`, the
non-empty `tabs` array, or a tab's `id`/`label`/`icon`/callable `component` —
the Extension Loader fails with the validation error message for `f`, that
message names the field verbatim, and an install of any archive whose
`main.js` evaluates to that export fails with the registry state (in
particular the installed collection) unchanged. -/
theorem c1_loader_rejects_naming_field_registry_unchanged
    (e : ExportObj) (f : ManifestField) (hf : firstViolation e = some f) :
    evalMainJs (.exports (some e)) = Except.error (missingFieldMsg f)
    ∧ containsStr (missingFieldMsg f) (fieldNameOf f)
    ∧ ∀ (evalJs : String → MainJsOutcome) (zip : ZipArchive) (st : AppState)
        (now : Nat) (code : String),
        zipFile zip "main.js" = some code →
        evalJs code = .exports (some e) →
        (installFromFile evalJs st zip now).1 = st
        ∧ (installFromFile evalJs st zip now).2.ok = false := by
  have hev := evalMainJs_error_of_firstViolation e f hf
  refine ⟨hev, missingFieldMsg_names f, ?_⟩
  intro evalJs zip st now code hmain hcode
  have hparse : parseZipBuffer evalJs zip = Except.error (missingFieldMsg f) := by
    simp [parseZipBuffer, hmain, hcode, hev]
  constructor <;> simp [installFromFile, hparse]

/-- Witness for C1: the concrete export whose `name` field is absent is
rejected with the `name`-naming message, and its install leaves the demo
registry state unchanged. -/
theorem c1_witness :
    evalMainJs (.exports (some badExport)) = Except.error (missingFieldMsg .fieldName)
    ∧ containsStr (missingFieldMsg .fieldName) (fieldNameOf .fieldName)
    ∧ (installFromFile evalJsDemo demoState zipBadMain 7).1 = demoState
    ∧ (installFromFile evalJsDemo demoState zipBadMain 7).2.ok = false := by
  have h := c1_loader_rejects_naming_field_registry_unchanged badExport .fieldName rfl
  exact ⟨h.1, h.2.1,
    (h.2.2 evalJsDemo zipBadMain demoState 7 "srcBad" rfl rfl).1,
    (h.2.2 evalJsDemo zipBadMain demoState 7 "srcBad" rfl rfl).2⟩

/-- C2: the rehydration effect installs exactly those persisted records whose
source loads successfully (each failing record is skipped in isolation, the
loop being total — no unhandled fault); in particular, for three records where
the second's source fails to load and the others succeed, exactly the first
and third are installed. -/
theorem c2_rehydration_isolated (evalJs : String → MainJsOutcome) :
    (∀ stored : List (String × PersistedExt),
      rehydrationEffect evalJs stored [] = stored.filterMap (fun ip =>
        match evalMainJs (evalJs ip.2.mainJs) with
        | .ok m => some ⟨m, ip.2.iconUri, ip.2.installedAt⟩
        | .error _ => none))
    ∧ ∀ (r1 r2 r3 : String × PersistedExt) (m1 m3 : ExtensionManifest) (msg : String),
        evalMainJs (evalJs r1.2.mainJs) = .ok m1 →
        evalMainJs (evalJs r2.2.mainJs) = .error msg →
        evalMainJs (evalJs r3.2.mainJs) = .ok m3 →
        rehydrationEffect evalJs [r1, r2, r3] [] =
          [⟨m1, r1.2.iconUri, r1.2.installedAt⟩, ⟨m3, r3.2.iconUri, r3.2.installedAt⟩] := by
  constructor
  · intro stored
    have hloop := rehydrateLoop_eq_filterMap evalJs stored
    by_cases h : stored = []
    · subst h; simp [rehydrationEffect]
    · have hne : stored.isEmpty = false := by simpa [List.isEmpty_iff] using h
      by_cases h2 : rehydrateLoop evalJs stored = []
      · simp [rehydrationEffect, hne, h2, ← hloop]
      · have h2e : (rehydrateLoop evalJs stored).isEmpty = false := by
          simpa [List.isEmpty_iff] using h2
        simp [rehydrationEffect, hne, h2e, hloop]
  · intro r1 r2 r3 m1 m3 msg h1 h2 h3
    obtain ⟨a1, p1⟩ := r1
    obtain ⟨a2, p2⟩ := r2
    obtain ⟨a3, p3⟩ := r3
    simp only at h1 h2 h3
    simp [rehydrationEffect, rehydrateLoop, h1, h2, h3]

/-- Witness for C2: of the three concrete persisted records whose middle
source is corrupted, exactly the first and third rehydrate. -/
theorem c2_witness :
    rehydrationEffect evalJsDemo [("a", recA), ("bad", recBad), ("b", recB)] [] =
      [⟨goodManifest, recA.iconUri, recA.installedAt⟩,
       ⟨extraManifest, recB.iconUri, recB.installedAt⟩] :=
  (c2_rehydration_isolated evalJsDemo).2 ("a", recA) ("bad", recBad) ("b", recB)
    goodManifest extraManifest "Missing field: \"name\"" rfl rfl rfl

/-- C3: installing an archive whose manifest id matches an already-installed
extension succeeds with upsert semantics — the result reports `ok`, the
installed collection does not grow, every record with that id in the new
collection is the freshly installed one (the old record is replaced), and the
persisted map's entry under key `manifest.id` holds the newest install's
source text. -/
theorem c3_install_upsert (evalJs : String → MainJsOutcome) (st : AppState)
    (zip : ZipArchive) (now : Nat) (pb : ParsedBundle) (X : InstalledExtension)
    (hparse : parseZipBuffer evalJs zip = .ok pb)
    (hX : X ∈ st.extensions) (hid : X.manifest.id = pb.manifest.id) :
    (installFromFile evalJs st zip now).2.ok = true
    ∧ (installFromFile evalJs st zip now).1.extensions.length ≤ st.extensions.length
    ∧ (∀ Y ∈ (installFromFile evalJs st zip now).1.extensions,
        Y.manifest.id = pb.manifest.id → Y = ⟨pb.manifest, pb.iconUri, now⟩)
    ∧ objGet (installFromFile evalJs st zip now).1.stored pb.manifest.id
        = some ⟨pb.mainJs, pb.iconUri, now⟩ := by
  have hinst : installFromFile evalJs st zip now =
      (⟨(st.extensions.filter (fun e => e.manifest.id != pb.manifest.id))
          ++ [⟨pb.manifest, pb.iconUri, now⟩],
        objSet st.stored pb.manifest.id ⟨pb.mainJs, pb.iconUri, now⟩⟩,
       ⟨true, none⟩) := by
    simp [installFromFile, hparse]
  refine ⟨by rw [hinst], ?_, ?_, ?_⟩
  · rw [hinst]
    have hlt : (st.extensions.filter (fun e => e.manifest.id != pb.manifest.id)).length
        < st.extensions.length :=
      List.length_filter_lt_length_iff_exists.mpr ⟨X, hX, by simp [hid]⟩
    simp only [List.length_append, List.length_cons, List.length_nil]
    omega
  · rw [hinst]
    intro Y hY hYid
    rcases List.mem_append.mp hY with hmem | hmem
    · have hbne := (List.mem_filter.mp hmem).2
      simp [hYid] at hbne
    · simpa using hmem
  · rw [hinst]
    exact objGet_objSet_self st.stored pb.manifest.id ⟨pb.mainJs, pb.iconUri, now⟩

/-- Witness for C3: installing `zipB` (same manifest id `com.t.x` as the
already-installed demo extension) upserts it in the demo registry state. -/
theorem c3_witness :
    (installFromFile evalJsDemo demoState zipB 9).2.ok = true
    ∧ (installFromFile evalJsDemo demoState zipB 9).1.extensions.length
        ≤ demoState.extensions.length
    ∧ objGet (installFromFile evalJsDemo demoState zipB 9).1.stored bundleB.manifest.id
        = some ⟨bundleB.mainJs, bundleB.iconUri, 9⟩ := by
  have h := c3_install_upsert evalJsDemo demoState zipB 9 bundleB ⟨goodManifest, none, 1⟩
    rfl (by simp [demoState]) rfl
  exact ⟨h.1, h.2.1, h.2.2.2⟩

/-- C4: after a successful install followed by `uninstall(manifest.id)`,
neither the in-memory installed collection nor the durable store holds a
record for that id; and uninstalling an id that is not installed (absent from
both the collection and the store) is a no-op, never an error — so uninstall
always succeeds and is idempotent. -/
theorem c4_uninstall_roundtrip_idempotent :
    (∀ (evalJs : String → MainJsOutcome) (st : AppState) (zip : ZipArchive)
        (now : Nat) (pb : ParsedBundle),
      parseZipBuffer evalJs zip = .ok pb →
      (∀ Y ∈ (uninstallExtension (installFromFile evalJs st zip now).1
                pb.manifest.id).extensions,
          Y.manifest.id ≠ pb.manifest.id)
      ∧ objGet (uninstallExtension (installFromFile evalJs st zip now).1
                  pb.manifest.id).stored pb.manifest.id = none)
    ∧ (∀ (st : AppState) (id : String),
        (∀ Y ∈ st.extensions, Y.manifest.id ≠ id) →
        objGet st.stored id = none →
        uninstallExtension st id = st) := by
  constructor
  · intro evalJs st zip now pb hparse
    constructor
    · intro Y hY
      simp only [uninstallExtension] at hY
      have hbne := (List.mem_filter.mp hY).2
      simpa using hbne
    · exact objGet_objDelete_self _ pb.manifest.id
  · intro st id hext hstore
    cases st with
    | mk exts stored =>
      have h1 : exts.filter (fun e => e.manifest.id != id) = exts :=
        List.filter_eq_self.mpr (fun Y hY => by simpa using hext Y hY)
      have h2 : objDelete stored id = stored :=
        objDelete_eq_self_of_absent stored id hstore
      simp [uninstallExtension, h1, h2]

/-- Witness for C4: install `zipB` into the demo state then uninstall its id —
no record under `com.t.x` survives in either collection; and uninstalling an
absent id from the empty state is a no-op. -/
theorem c4_witness :
    objGet (uninstallExtension (installFromFile evalJsDemo demoState zipB 9).1
              bundleB.manifest.id).stored bundleB.manifest.id = none
    ∧ uninstallExtension ⟨[], []⟩ "com.absent" = (⟨[], []⟩ : AppState) :=
  ⟨(c4_uninstall_roundtrip_idempotent.1 evalJsDemo demoState zipB 9 bundleB rfl).2,
   c4_uninstall_roundtrip_idempotent.2 ⟨[], []⟩ "com.absent" (by simp) rfl⟩

/-- Counterexample for C5: with a snapshot active, after
`setHandlers({onPlay: f1})` (f1 = callback 1) and then
`setHandlers({onPause: f2})` (f2 = callback 2), a platform "play" press still
invokes f1 — the platform media session's play action handler was registered
by the first call and the second call's re-synchronization never unregisters
it (`setupWebMediaSession` only sets the actions present in the new set).
This falsifies the claim that a play press after the second call does not
invoke f1. -/
theorem c5_counterexample :
    pressPlay (musicSetHandlers handlersPause2
        (musicSetHandlers handlersPlay1 (mpActive, msEmpty))).2 = some 1 := rfl

/-- C5 (amended): `setHandlers` replaces the internally registered handler set
wholesale — after `setHandlers({onPlay: f1})` then `setHandlers({onPause: f2})`
the registered set has `onPlay` unset and only `onPause = f2` — but while a
snapshot is active the re-synchronization registers only the handlers present
in the new set and does not unregister the platform media session's previously
registered play action, so a platform play press after the second call still
invokes f1. -/
theorem c5_setHandlers_replace_wholesale_platform_retains (f1 f2 : Nat)
    (st : MediaPlayerState) (ms : MediaSessionState) (info : MusicNotificationInfo)
    (hsnap : st.notifInfo = some info) :
    ((musicSetHandlers { noHandlers with onPause := some f2 }
        (musicSetHandlers { noHandlers with onPlay := some f1 } (st, ms))).1.handlers
      = { noHandlers with onPause := some f2 })
    ∧ pressPlay (musicSetHandlers { noHandlers with onPause := some f2 }
        (musicSetHandlers { noHandlers with onPlay := some f1 } (st, ms))).2 = some f1 := by
  constructor
  · simp [musicSetHandlers]
  · simp [musicSetHandlers, hsnap, setupWebMediaSession, pressPlay, noHandlers]

/-- Witness for C5 (amended) at the concrete active-snapshot state with
callbacks 1 and 2. -/
theorem c5_witness :
    ((musicSetHandlers { noHandlers with onPause := some 2 }
        (musicSetHandlers { noHandlers with onPlay := some 1 } (mpActive, msEmpty))).1.handlers
      = { noHandlers with onPause := some 2 })
    ∧ pressPlay (musicSetHandlers { noHandlers with onPause := some 2 }
        (musicSetHandlers { noHandlers with onPlay := some 1 } (mpActive, msEmpty))).2 = some 1 :=
  c5_setHandlers_replace_wholesale_platform_retains 1 2 mpActive msEmpty demoInfo rfl

/-- C6: the navigation stack invariant — every transition sequence from the
initial state yields a stack of length at least 1 whose first entry is the
reserved root entry (sentinel screen name `__root__`); `pop` removes the last
entry exactly when the length exceeds 1 and is a no-op at the root;
`popToRoot` always yields the single root entry; and the sentinel name always
renders the tab's root component, even when a user-defined `screens` mapping
contains that name (the sentinel is reserved). -/
theorem c6_nav_stack_invariant :
    (∀ ops : List NavOp, 1 ≤ (runNav ops).length ∧ (runNav ops).head? = some rootEntry)
    ∧ (∀ s : List StackEntry, 1 < s.length → navStep s .popScreen = s.dropLast)
    ∧ (∀ s : List StackEntry, s.length ≤ 1 → navStep s .popScreen = s)
    ∧ (∀ s : List StackEntry, navStep s .popToRoot = initialStack)
    ∧ (∀ (screens : Option (List String)) (p : ParamMap),
        renderedScreen screens ⟨"__root__", p⟩ = .rootComponent)
    ∧ rootEntry.screenName = "__root__" := by
  refine ⟨?_, ?_, ?_, fun s => rfl, ?_, rfl⟩
  · intro ops
    have hh := runNav_head ops
    refine ⟨?_, hh⟩
    cases hr : runNav ops with
    | nil => rw [hr] at hh; simp at hh
    | cons a t => simp
  · intro s hs
    have hgt : ¬ s.length ≤ 1 := by omega
    simp [navStep, hgt]
  · intro s hs
    simp [navStep, hs]
  · intro screens p
    simp [renderedScreen]

/-- Witness for C6: concrete transition sequence, pop at depth 2 and at the
root, popToRoot, and sentinel resolution against a `screens` map that even
defines the sentinel name. -/
theorem c6_witness :
    (1 ≤ (runNav [NavOp.pushScreen "detail" none, NavOp.popScreen]).length
     ∧ (runNav [NavOp.pushScreen "detail" none, NavOp.popScreen]).head? = some rootEntry)
    ∧ navStep [rootEntry, ⟨"detail", []⟩] .popScreen
        = ([rootEntry, ⟨"detail", []⟩] : List StackEntry).dropLast
    ∧ navStep [rootEntry] .popScreen = [rootEntry]
    ∧ navStep [rootEntry, ⟨"detail", []⟩] .popToRoot = initialStack
    ∧ renderedScreen (some ["__root__", "detail"]) ⟨"__root__", []⟩ = .rootComponent
    ∧ rootEntry.screenName = "__root__" :=
  ⟨c6_nav_stack_invariant.1 [NavOp.pushScreen "detail" none, NavOp.popScreen],
   c6_nav_stack_invariant.2.1 [rootEntry, ⟨"detail", []⟩] (by simp),
   c6_nav_stack_invariant.2.2.1 [rootEntry] (by simp),
   c6_nav_stack_invariant.2.2.2.1 [rootEntry, ⟨"detail", []⟩],
   c6_nav_stack_invariant.2.2.2.2.1 (some ["__root__", "detail"]) [],
   c6_nav_stack_invariant.2.2.2.2.2⟩

/-- C7: the Archive Reader fails on an archive with no `main.js` member with a
message that enumerates the member names actually found (each found name
occurs verbatim in the message), and an absent icon member is not an error —
parsing succeeds with a `null` icon whenever the code module loads. -/
theorem c7_archive_reader (evalJs : String → MainJsOutcome) (zip : ZipArchive) :
    (zipFile zip "main.js" = none →
      parseZipBuffer evalJs zip
        = .error ("main.js not found. Found: " ++ joinComma (zip.files.map Prod.fst))
      ∧ ∀ n ∈ zip.files.map Prod.fst,
          containsStr ("main.js not found. Found: " ++ joinComma (zip.files.map Prod.fst)) n)
    ∧ (∀ (code : String) (m : ExtensionManifest),
        zipFile zip "main.js" = some code →
        zipFile zip "icon.png" = none →
        evalMainJs (evalJs code) = .ok m →
        parseZipBuffer evalJs zip = .ok ⟨m, code, none⟩) := by
  constructor
  · intro hmain
    refine ⟨by simp [parseZipBuffer, hmain], ?_⟩
    intro n hn
    exact containsStr_append_left "main.js not found. Found: " (joinComma_contains _ n hn)
  · intro code m hmain hicon hev
    simp [parseZipBuffer, hmain, hicon, hev]

/-- Witness for C7: the archive without `main.js` yields the enumerating
message (holding the member name `readme.txt`), and the icon-less archive
`zipA` parses successfully with a `null` icon. -/
theorem c7_witness :
    parseZipBuffer evalJsDemo zipNoMain
      = .error ("main.js not found. Found: " ++ joinComma (zipNoMain.files.map Prod.fst))
    ∧ containsStr ("main.js not found. Found: "
        ++ joinComma (zipNoMain.files.map Prod.fst)) "readme.txt"
    ∧ parseZipBuffer evalJsDemo zipA = .ok ⟨goodManifest, "srcA", none⟩ := by
  have h1 := (c7_archive_reader evalJsDemo zipNoMain).1 rfl
  exact ⟨h1.1, h1.2 "readme.txt" (by simp [zipNoMain]),
    (c7_archive_reader evalJsDemo zipA).2 "srcA" goodManifest rfl rfl rfl⟩

/-- C8: at most one live video session, with replace-on-open semantics —
`open(A)` then `open(B)` before any `close()` leaves exactly one rendered
player, configured with B's options, and `isOpen` true; `close()` destroys
the live session, making `isOpen` false. -/
theorem c8_video_replace_on_open (A B : VideoPlayerOptions) (st : MediaPlayerState) :
    renderedVideoPlayer (videoOpen B (videoOpen A st)) = some B
    ∧ videoIsOpen (videoOpen B (videoOpen A st)) = true
    ∧ renderedVideoPlayer (videoClose (videoOpen B (videoOpen A st))) = none
    ∧ videoIsOpen (videoClose (videoOpen B (videoOpen A st))) = false :=
  ⟨rfl, rfl, rfl, rfl⟩

/-- C9: `skip(s)` issues a seek to `max(0, min(duration, position + s))` —
a target clamped to `[0, duration]`, equal to `position + s` whenever that sum
already lies in the interval — and `togglePlay` in the Ended state replays
from the start, clearing the ended flag, rather than resuming. -/
theorem c9_skip_clamps_toggle_replays (st : VideoPlaybackState) (s : ℚ)
    (hd : 0 ≤ st.duration) :
    skip st s = .setPositionMillis ((max 0 (min st.duration (st.position + s))) * 1000)
    ∧ 0 ≤ max 0 (min st.duration (st.position + s))
    ∧ max 0 (min st.duration (st.position + s)) ≤ st.duration
    ∧ (0 ≤ st.position + s → st.position + s ≤ st.duration →
        max 0 (min st.duration (st.position + s)) = st.position + s)
    ∧ (st.isEnded = true → togglePlay st = (.replayCmd, { st with isEnded := false })) := by
  refine ⟨rfl, le_max_left 0 _, max_le hd (min_le_left _ _), ?_, ?_⟩
  · intro h0 hdur
    rw [min_eq_right hdur, max_eq_right h0]
  · intro hend
    simp [togglePlay, hend]

/-- Witness for C9 at the concrete Ended-state playback (duration 10,
position 2) with delta 5. -/
theorem c9_witness :
    skip demoPlayback 5
      = .setPositionMillis ((max 0 (min demoPlayback.duration (demoPlayback.position + 5))) * 1000)
    ∧ 0 ≤ max 0 (min demoPlayback.duration (demoPlayback.position + 5))
    ∧ max 0 (min demoPlayback.duration (demoPlayback.position + 5)) ≤ demoPlayback.duration
    ∧ max 0 (min demoPlayback.duration (demoPlayback.position + 5)) = demoPlayback.position + 5
    ∧ togglePlay demoPlayback = (.replayCmd, { demoPlayback with isEnded := false }) := by
  have h := c9_skip_clamps_toggle_replays demoPlayback 5 (by norm_num [demoPlayback])
  exact ⟨h.1, h.2.1, h.2.2.1,
    h.2.2.2.1 (by norm_num [demoPlayback]) (by norm_num [demoPlayback]),
    h.2.2.2.2 rfl⟩

/-- C10: while the process-wide media-player slot is unset (no provider has
mounted), every injected media-control capability call is a safe no-op — the
update/setHandlers/clear/open/close handles leave the world unchanged and
throw nothing (they are total functions), `videoPlayer.isOpen()` returns
false, and `musicPlayer.getCurrent()` returns null. -/
theorem c10_bridge_noop_before_mount (w : BridgeWorld) (hw : w.mp = none) :
    (∀ i, bridgeMusicUpdate i w = w)
    ∧ (∀ h, bridgeMusicSetHandlers h w = w)
    ∧ bridgeMusicClear w = w
    ∧ bridgeMusicGetCurrent w = none
    ∧ (∀ o, bridgeVideoOpen o w = w)
    ∧ bridgeVideoClose w = w
    ∧ bridgeVideoIsOpen w = false := by
  cases w with
  | mk mp =>
    simp only at hw
    subst hw
    exact ⟨fun i => rfl, fun h => rfl, rfl, rfl, fun o => rfl, rfl, rfl⟩

/-- Witness for C10 at the unset slot, each handle applied to concrete
arguments. -/
theorem c10_witness :
    bridgeMusicUpdate demoInfo ⟨none⟩ = (⟨none⟩ : BridgeWorld)
    ∧ bridgeMusicSetHandlers handlersPlay1 ⟨none⟩ = (⟨none⟩ : BridgeWorld)
    ∧ bridgeMusicClear ⟨none⟩ = (⟨none⟩ : BridgeWorld)
    ∧ bridgeMusicGetCurrent ⟨none⟩ = none
    ∧ bridgeVideoOpen videoOptsA ⟨none⟩ = (⟨none⟩ : BridgeWorld)
    ∧ bridgeVideoClose ⟨none⟩ = (⟨none⟩ : BridgeWorld)
    ∧ bridgeVideoIsOpen ⟨none⟩ = false := by
  have h := c10_bridge_noop_before_mount ⟨none⟩ rfl
  exact ⟨h.1 demoInfo, h.2.1 handlersPlay1, h.2.2.1, h.2.2.2.1,
    h.2.2.2.2.1 videoOptsA, h.2.2.2.2.2.1, h.2.2.2.2.2.2⟩

end LighterHub
